import Mathlib

/-!
Shallow embedding of the treerite binding layer (src/sys/mod.rs and
src/dmatrix.rs) together with a model of the native treelite C API it
wraps.  C strings are modelled as Lean `String`s (the content before the
terminating NUL); byte strings as `List Nat`; the opaque native state
(handle table, last-error store, free-call count) as an explicit record
threaded through every fallible operation.
-/

namespace Treerite

/-- Modelled from the spec: the error type of the crate (`errors.rs` is not
part of the visible sources).  Section 7 of the spec gives a single error
taxonomy with two kinds: a native-reported error carrying the native
diagnostic text, and an unknown-type-token error carrying the offending
string. -/
inductive TreeRiteError where
  | CError (msg : String)
  | UnknownDataTypeString (tok : String)
deriving DecidableEq, Repr

/-- The `DataType` enumeration of src/sys/mod.rs. -/
inductive DataType where
  | Float32
  | Float64
  | UInt32
deriving DecidableEq, Repr

/-- Constant `DTYPE_FLOAT32` of src/sys/mod.rs (C-string content). -/
def DTYPE_FLOAT32 : String := "float32"

/-- Constant `DTYPE_FLOAT64` of src/sys/mod.rs (C-string content). -/
def DTYPE_FLOAT64 : String := "float64"

/-- Constant `DTYPE_UINT32` of src/sys/mod.rs (C-string content). -/
def DTYPE_UINT32 : String := "uint32"

/-- The `From<DataType> for &'static CStr` impl of src/sys/mod.rs. -/
def cstrFromDataType : DataType → String
  | DataType.Float32 => DTYPE_FLOAT32
  | DataType.Float64 => DTYPE_FLOAT64
  | DataType.UInt32 => DTYPE_UINT32

/-- The `TryInto<DataType> for &'static CStr` impl of src/sys/mod.rs:
exact string comparison against the three tokens, otherwise the
unknown-type error carrying the offending string (lossy UTF-8 conversion
is the identity on our `String` model). -/
def dataTypeTryFromCStr (s : String) : Except TreeRiteError DataType :=
  if s = DTYPE_FLOAT32 then
    Except.ok DataType.Float32
  else if s = DTYPE_FLOAT64 then
    Except.ok DataType.Float64
  else if s = DTYPE_UINT32 then
    Except.ok DataType.UInt32
  else
    Except.error (TreeRiteError.UnknownDataTypeString s)

/-- The always-panicking helper `illegal_null_in_string` of
src/sys/mod.rs (`[][0]` out-of-bounds in const context); `none` models
the failure. -/
def illegal_null_in_string : Option Unit := none

/-- The const fn `validate_cstr_contents` of src/sys/mod.rs: walks the
byte string and fails (compile-time, via `illegal_null_in_string`) on any
NUL byte; `some ()` models normal return. -/
def validate_cstr_contents : List Nat → Option Unit
  | [] => some ()
  | b :: rest =>
    if b = 0 then illegal_null_in_string else validate_cstr_contents rest

/-- Bytes of a string (all our tokens are ASCII, so the UTF-8 bytes are
the character codes). -/
def strBytes (s : String) : List Nat := s.toList.map Char.toNat

/-- State of the native treelite library as observable through the
binding layer: a fresh-handle counter, the table of live data-matrix
handles with their dimensions, the process-wide last-error store, and a
count of issued free calls. -/
structure NativeState where
  nextHandle : Nat
  live : List (Nat × Nat × Nat)
  lastError : String
  freeCalls : Nat
deriving DecidableEq, Repr

/-- The canonical initial native state: no live handles. -/
def initState : NativeState :=
  { nextHandle := 0, live := [], lastError := "", freeCalls := 0 }

/-- The `TreeliteGetLastError`-based `get_last_error` of src/sys/mod.rs:
wraps the native last-error text in `CError`. -/
def get_last_error (st : NativeState) : TreeRiteError :=
  TreeRiteError.CError st.lastError

/-- The `RetCodeCheck` impl for `c_int` of src/sys/mod.rs: a nonzero
return code fetches and wraps the native last error, a zero code
returns unit. -/
def RetCodeCheck.check (c : Int) (st : NativeState) : Except TreeRiteError Unit :=
  if c ≠ 0 then Except.error (get_last_error st) else Except.ok ()

/-- Modelled from the spec: `treelite_dmatrix_create_from_slice_with_cols`
(sys/dmatrix.rs is not part of the visible sources).  Per the spec,
construction succeeds exactly when `len(s) % ncols == 0`, yielding a
fresh handle whose dimensions are `(len / ncols, ncols)`; otherwise the
native library reports an error (fetched from the last-error store). -/
def treelite_dmatrix_create_from_slice_with_cols (dataLen ncols : Nat)
    (st : NativeState) : Except TreeRiteError Nat × NativeState :=
  if dataLen % ncols = 0 then
    let h := st.nextHandle
    (Except.ok h,
      { st with nextHandle := h + 1, live := (h, dataLen / ncols, ncols) :: st.live })
  else
    let msg := "DMatrix: slice length not divisible by number of columns"
    (Except.error (TreeRiteError.CError msg), { st with lastError := msg })

/-- Modelled from the spec: `treelite_dmatrix_create_from_slice`
(sys/dmatrix.rs is not part of the visible sources).  Per the spec, a
flat slice yields a single-row matrix: a fresh handle with dimensions
`(1, len)`. -/
def treelite_dmatrix_create_from_slice (dataLen : Nat)
    (st : NativeState) : Except TreeRiteError Nat × NativeState :=
  let h := st.nextHandle
  (Except.ok h,
    { st with nextHandle := h + 1, live := (h, 1, dataLen) :: st.live })

/-- Modelled from the spec: `treelite_dmatrix_get_dimension` (sys/dmatrix.rs
is not part of the visible sources).  Returns the pair of unsigned
integers (rows, columns) recorded for a live handle; errors with the
translated native error on a dead handle (defensive, per the spec). -/
def treelite_dmatrix_get_dimension (h : Nat)
    (st : NativeState) : Except TreeRiteError (Nat × Nat) :=
  match st.live.find? (fun e => e.1 = h) with
  | some e => Except.ok (e.2.1, e.2.2)
  | none => Except.error (get_last_error st)

/-- Modelled from the spec: `treelite_dmatrix_free` (sys/dmatrix.rs is not
part of the visible sources).  Every call is counted; freeing a live
handle removes it, freeing a dead handle is the at-most-once violation the
spec forbids and reports an error. -/
def treelite_dmatrix_free (h : Nat)
    (st : NativeState) : Except TreeRiteError Unit × NativeState :=
  let st1 := { st with freeCalls := st.freeCalls + 1 }
  match st.live.find? (fun e => e.1 = h) with
  | some _ => (Except.ok (), { st1 with live := st1.live.filter (fun e => e.1 ≠ h) })
  | none => (Except.error (get_last_error st1), st1)

/-- The `DMatrix<F>` wrapper of src/dmatrix.rs: owns one native handle
(the phantom element type does not affect behaviour). -/
structure DMatrix where
  handle : Nat
deriving DecidableEq, Repr

/-- The `TryInto<DMatrix<F>> for &'a [F]` impl of src/dmatrix.rs: calls
`treelite_dmatrix_create_from_slice` and wraps the handle. -/
def sliceTryIntoDMatrix {α : Type} (array : List α)
    (st : NativeState) : Except TreeRiteError DMatrix × NativeState :=
  match treelite_dmatrix_create_from_slice array.length st with
  | (Except.ok h, st1) => (Except.ok { handle := h }, st1)
  | (Except.error e, st1) => (Except.error e, st1)

/-- The `DMatrix::from_slice` constructor of src/dmatrix.rs: delegates to
the `TryInto` conversion (`array.try_into()?`). -/
def DMatrix.from_slice {α : Type} (array : List α)
    (st : NativeState) : Except TreeRiteError DMatrix × NativeState :=
  sliceTryIntoDMatrix array st

/-- The `DMatrix::from_slice_with_cols` constructor of src/dmatrix.rs:
calls `treelite_dmatrix_create_from_slice_with_cols` and wraps the
handle. -/
def DMatrix.from_slice_with_cols {α : Type} (array : List α) (ncols : Nat)
    (st : NativeState) : Except TreeRiteError DMatrix × NativeState :=
  match treelite_dmatrix_create_from_slice_with_cols array.length ncols st with
  | (Except.ok h, st1) => (Except.ok { handle := h }, st1)
  | (Except.error e, st1) => (Except.error e, st1)

/-- The `DMatrix::nrows` query of src/dmatrix.rs: first component of
`treelite_dmatrix_get_dimension(self.handle)?`. -/
def DMatrix.nrows (m : DMatrix) (st : NativeState) : Except TreeRiteError Nat :=
  match treelite_dmatrix_get_dimension m.handle st with
  | Except.ok d => Except.ok d.1
  | Except.error e => Except.error e

/-- The `DMatrix::ncols` query of src/dmatrix.rs: second component of
`treelite_dmatrix_get_dimension(self.handle)?`. -/
def DMatrix.ncols (m : DMatrix) (st : NativeState) : Except TreeRiteError Nat :=
  match treelite_dmatrix_get_dimension m.handle st with
  | Except.ok d => Except.ok d.2
  | Except.error e => Except.error e

/-- The `Drop for DMatrix<F>` impl of src/dmatrix.rs: issues one native
free call; on failure, the error is suppressed when `freePanic` (the
`free_panic` cargo feature) is off, and the program terminates abruptly
(modelled as `none`) when it is on. -/
def DMatrix.drop (freePanic : Bool) (m : DMatrix)
    (st : NativeState) : Option NativeState :=
  match treelite_dmatrix_free m.handle st with
  | (Except.ok _, st1) => some st1
  | (Except.error _, st1) => if freePanic then none else some st1

/-- C1: each of the three valid tokens "float32", "float64", "uint32"
converts to its `DataType` value and back to the identical token (a full
round-trip), while converting any other string fails with the
unknown-type error carrying that exact string, never a silently
defaulted type. -/
theorem dataType_token_roundtrip :
    (∀ dt : DataType, dataTypeTryFromCStr (cstrFromDataType dt) = Except.ok dt)
    ∧ (∀ (s : String) (dt : DataType),
        dataTypeTryFromCStr s = Except.ok dt → cstrFromDataType dt = s)
    ∧ (∀ s : String, s ≠ DTYPE_FLOAT32 → s ≠ DTYPE_FLOAT64 → s ≠ DTYPE_UINT32 →
        dataTypeTryFromCStr s = Except.error (TreeRiteError.UnknownDataTypeString s)) := by
  refine ⟨?_, ?_, ?_⟩
  · intro dt
    cases dt <;> rfl
  · intro s dt h
    unfold dataTypeTryFromCStr at h
    split_ifs at h with h1 h2 h3 <;> simp_all [cstrFromDataType] <;>
      subst h <;> rfl
  · intro s h1 h2 h3
    unfold dataTypeTryFromCStr
    simp [h1, h2, h3]

/-- Witness for C1 at the concrete tokens "float64" and "float16". -/
theorem dataType_token_roundtrip_witness :
    cstrFromDataType DataType.Float64 = "float64"
    ∧ dataTypeTryFromCStr "float16" =
        Except.error (TreeRiteError.UnknownDataTypeString "float16") :=
  ⟨dataType_token_roundtrip.2.1 "float64" DataType.Float64 rfl,
   dataType_token_roundtrip.2.2 "float16" (by decide) (by decide) (by decide)⟩

/-- C2: for every integer return code `c`, `check c` succeeds exactly when
`c = 0`; every nonzero code returns an error wrapping the native
last-error diagnostic text fetched via `get_last_error`; a zero code
never inspects the native state (its result is the same in every
state). -/
theorem retcode_check_uniform :
    (∀ (c : Int) (st : NativeState), RetCodeCheck.check c st = Except.ok () ↔ c = 0)
    ∧ (∀ (c : Int) (st : NativeState), c ≠ 0 →
        RetCodeCheck.check c st = Except.error (get_last_error st)
        ∧ get_last_error st = TreeRiteError.CError st.lastError)
    ∧ (∀ st st' : NativeState, RetCodeCheck.check 0 st = RetCodeCheck.check 0 st') := by
  refine ⟨?_, ?_, ?_⟩
  · intro c st
    unfold RetCodeCheck.check
    split_ifs with hc
    · simp [hc]
    · simp at hc
      simp [hc]
  · intro c st hc
    unfold RetCodeCheck.check
    simp [hc, get_last_error]
  · intro st st'
    rfl

/-- Witness for C2 at code 1 in the initial state. -/
theorem retcode_check_uniform_witness :
    RetCodeCheck.check 1 initState = Except.error (get_last_error initState)
    ∧ get_last_error initState = TreeRiteError.CError initState.lastError :=
  retcode_check_uniform.2.1 1 initState (by decide)

/-- C6: when the native free call fails during destruction, the default
(non-strict) drop suppresses the error and completes with the state the
failed free left behind, while the strict `free_panic` drop aborts
(`none`); a successful free completes in both configurations. -/
theorem drop_free_failure_policy :
    ∀ (m : DMatrix) (st : NativeState),
      (∀ (e : TreeRiteError) (st1 : NativeState),
        treelite_dmatrix_free m.handle st = (Except.error e, st1) →
          DMatrix.drop false m st = some st1 ∧ DMatrix.drop true m st = none)
      ∧ (∀ (u : Unit) (st1 : NativeState),
        treelite_dmatrix_free m.handle st = (Except.ok u, st1) →
          DMatrix.drop false m st = some st1 ∧ DMatrix.drop true m st = some st1) := by
  intro m st
  constructor
  · intro e st1 h
    unfold DMatrix.drop
    rw [h]
    exact ⟨rfl, rfl⟩
  · intro u st1 h
    unfold DMatrix.drop
    rw [h]
    exact ⟨rfl, rfl⟩

/-- Witness for C6: freeing the dead handle 0 in the initial state
fails, so the non-strict drop completes and the strict drop aborts. -/
theorem drop_free_failure_policy_witness :
    DMatrix.drop false { handle := 0 } initState =
      some { initState with freeCalls := 1 }
    ∧ DMatrix.drop true { handle := 0 } initState = none :=
  (drop_free_failure_policy { handle := 0 } initState).1
    (TreeRiteError.CError "") { initState with freeCalls := 1 } rfl

/-- C7: `nrows` returns the first component and `ncols` the second
component of the pair produced by the native dimension query on the
matrix's handle, and each query errors exactly when the native dimension
call itself errors, with the same translated error. -/
theorem nrows_ncols_projection :
    ∀ (m : DMatrix) (st : NativeState),
      DMatrix.nrows m st =
        (treelite_dmatrix_get_dimension m.handle st).map (fun d => d.1)
      ∧ DMatrix.ncols m st =
        (treelite_dmatrix_get_dimension m.handle st).map (fun d => d.2) := by
  intro m st
  unfold DMatrix.nrows DMatrix.ncols
  cases treelite_dmatrix_get_dimension m.handle st <;> exact ⟨rfl, rfl⟩

/-- C8: `validate_cstr_contents` returns normally exactly on byte strings
free of NUL bytes, reaches the always-failing branch on every byte string
containing a NUL byte, and accepts the bytes of the three type-token
constants. -/
theorem validate_cstr_spec :
    (∀ bytes : List Nat, validate_cstr_contents bytes = some () ↔ ∀ b ∈ bytes, b ≠ 0)
    ∧ (∀ bytes : List Nat, (∃ b ∈ bytes, b = 0) → validate_cstr_contents bytes = none)
    ∧ validate_cstr_contents (strBytes DTYPE_FLOAT32) = some ()
    ∧ validate_cstr_contents (strBytes DTYPE_FLOAT64) = some ()
    ∧ validate_cstr_contents (strBytes DTYPE_UINT32) = some () := by
  have key : ∀ bytes : List Nat,
      validate_cstr_contents bytes = some () ↔ ∀ b ∈ bytes, b ≠ 0 := by
    intro bytes
    induction bytes with
    | nil => simp [validate_cstr_contents]
    | cons b rest ih =>
      by_cases hb : b = 0
      · subst hb
        simp [validate_cstr_contents, illegal_null_in_string]
      · simp [validate_cstr_contents, hb, ih]
  refine ⟨key, ?_, by decide, by decide, by decide⟩
  intro bytes hex
  cases hv : validate_cstr_contents bytes with
  | none => rfl
  | some u =>
    obtain ⟨b, hmem, hb0⟩ := hex
    have : ∀ b ∈ bytes, b ≠ 0 := (key bytes).mp (by cases u; exact hv)
    exact absurd hb0 (this b hmem)

/-- Witness for C8 at the byte string [102, 0]. -/
theorem validate_cstr_spec_witness :
    validate_cstr_contents [102, 0] = none :=
  validate_cstr_spec.2.1 [102, 0] ⟨0, by decide, by decide⟩

/-- C10: `DMatrix::from_slice` and the `TryInto` conversion from a slice
agree on every input, and both delegate to the same native single-slice
construction call, wrapping its handle and propagating its error
unchanged. -/
theorem from_slice_eq_try_into :
    ∀ (α : Type) (array : List α) (st : NativeState),
      DMatrix.from_slice array st = sliceTryIntoDMatrix array st
      ∧ DMatrix.from_slice array st =
          (match treelite_dmatrix_create_from_slice array.length st with
           | (Except.ok h, st1) => (Except.ok { handle := h }, st1)
           | (Except.error e, st1) => (Except.error e, st1)) := by
  intro α array st
  exact ⟨rfl, rfl⟩

/-- C3: whenever the slice length is divisible by `ncols`,
`from_slice_with_cols` succeeds and the matrix reports
`nrows = len / ncols` and `ncols` columns; whenever `ncols` does not
evenly divide the length, construction fails with a native-reported
error. -/
theorem from_slice_with_cols_spec :
    ∀ (α : Type) (array : List α) (ncols : Nat) (st : NativeState),
      (array.length % ncols = 0 →
        ∃ (m : DMatrix) (st1 : NativeState),
          DMatrix.from_slice_with_cols array ncols st = (Except.ok m, st1)
          ∧ DMatrix.nrows m st1 = Except.ok (array.length / ncols)
          ∧ DMatrix.ncols m st1 = Except.ok ncols)
      ∧ (array.length % ncols ≠ 0 →
        ∃ (msg : String) (st1 : NativeState),
          DMatrix.from_slice_with_cols array ncols st =
            (Except.error (TreeRiteError.CError msg), st1)) := by
  intro α array ncols st
  constructor
  · intro hmod
    refine ⟨{ handle := st.nextHandle },
      { st with nextHandle := st.nextHandle + 1,
                live := (st.nextHandle, array.length / ncols, ncols) :: st.live },
      ?_, ?_, ?_⟩
    · simp [DMatrix.from_slice_with_cols,
        treelite_dmatrix_create_from_slice_with_cols, hmod]
    · simp [DMatrix.nrows, treelite_dmatrix_get_dimension, List.find?]
    · simp [DMatrix.ncols, treelite_dmatrix_get_dimension, List.find?]
  · intro hmod
    refine ⟨"DMatrix: slice length not divisible by number of columns",
      { st with lastError := "DMatrix: slice length not divisible by number of columns" },
      ?_⟩
    simp [DMatrix.from_slice_with_cols,
      treelite_dmatrix_create_from_slice_with_cols, hmod]

/-- Witness for C3 at a six-element slice with three and then four
columns in the initial state. -/
theorem from_slice_with_cols_spec_witness :
    (∃ (m : DMatrix) (st1 : NativeState),
      DMatrix.from_slice_with_cols [5, 6, 7, 8, 9, 10] 3 initState = (Except.ok m, st1)
      ∧ DMatrix.nrows m st1 = Except.ok 2
      ∧ DMatrix.ncols m st1 = Except.ok 3)
    ∧ (∃ (msg : String) (st1 : NativeState),
      DMatrix.from_slice_with_cols [5, 6, 7, 8, 9, 10] 4 initState =
        (Except.error (TreeRiteError.CError msg), st1)) :=
  ⟨(from_slice_with_cols_spec Nat [5, 6, 7, 8, 9, 10] 3 initState).1 (by decide),
   (from_slice_with_cols_spec Nat [5, 6, 7, 8, 9, 10] 4 initState).2 (by decide)⟩

/-- C4: for every non-empty flat slice, `from_slice` succeeds and the
matrix reports one row and as many columns as the slice has elements. -/
theorem from_slice_single_row :
    ∀ (α : Type) (array : List α) (st : NativeState), array ≠ [] →
      ∃ (m : DMatrix) (st1 : NativeState),
        DMatrix.from_slice array st = (Except.ok m, st1)
        ∧ DMatrix.nrows m st1 = Except.ok 1
        ∧ DMatrix.ncols m st1 = Except.ok array.length := by
  intro α array st _
  refine ⟨{ handle := st.nextHandle },
    { st with nextHandle := st.nextHandle + 1,
              live := (st.nextHandle, 1, array.length) :: st.live },
    rfl, ?_, ?_⟩
  · simp [DMatrix.nrows, treelite_dmatrix_get_dimension, List.find?]
  · simp [DMatrix.ncols, treelite_dmatrix_get_dimension, List.find?]

/-- Witness for C4 at the slice [3, 1, 4] in the initial state. -/
theorem from_slice_single_row_witness :
    ∃ (m : DMatrix) (st1 : NativeState),
      DMatrix.from_slice [3, 1, 4] initState = (Except.ok m, st1)
      ∧ DMatrix.nrows m st1 = Except.ok 1
      ∧ DMatrix.ncols m st1 = Except.ok 3 :=
  from_slice_single_row Nat [3, 1, 4] initState (by decide)

/-- Scenario for the exactly-once-free property: construct `n` single-row
matrices in sequence through `DMatrix.from_slice` (the error branch is
unreachable in the model and simply continues). -/
def constructN : Nat → NativeState → List DMatrix × NativeState
  | 0, st => ([], st)
  | n + 1, st =>
    match DMatrix.from_slice ([0] : List Nat) st with
    | (Except.ok m, st1) =>
      let r := constructN n st1
      (m :: r.1, r.2)
    | (Except.error _, st1) => constructN n st1

/-- Drop every matrix in order through the strict (`free_panic`) drop, so
that the result is `none` exactly when some native free call failed,
i.e. on any double free or unknown handle. -/
def dropAllStrict : List DMatrix → NativeState → Option NativeState
  | [], st => some st
  | m :: rest, st =>
    match DMatrix.drop true m st with
    | some st1 => dropAllStrict rest st1
    | none => none

theorem constructN_handles (n : Nat) :
    ∀ st : NativeState,
      ((constructN n st).1).map (fun m => m.handle) = List.range' st.nextHandle n
      ∧ (constructN n st).2 =
          { nextHandle := st.nextHandle + n,
            live := (List.range' st.nextHandle n).reverse.map (fun k => (k, 1, 1))
                      ++ st.live,
            lastError := st.lastError, freeCalls := st.freeCalls } := by
  induction n with
  | zero =>
    intro st
    constructor
    · rfl
    · simp [constructN]
  | succ n ih =>
    intro st
    obtain ⟨ih1, ih2⟩ := ih ⟨st.nextHandle + 1, (st.nextHandle, 1, 1) :: st.live,
      st.lastError, st.freeCalls⟩
    have hstep : constructN (n + 1) st =
        (({ handle := st.nextHandle } : DMatrix) ::
          (constructN n ⟨st.nextHandle + 1, (st.nextHandle, 1, 1) :: st.live,
            st.lastError, st.freeCalls⟩).1,
         (constructN n ⟨st.nextHandle + 1, (st.nextHandle, 1, 1) :: st.live,
            st.lastError, st.freeCalls⟩).2) := rfl
    rw [hstep]
    constructor
    · simp only [List.map_cons]
      rw [ih1]
      exact (List.range'_succ st.nextHandle n 1).symm
    · rw [ih2]
      simp only [List.range'_succ, List.reverse_cons, List.map_append, List.map_cons,
        List.map_nil, List.append_assoc, List.singleton_append, List.nil_append,
        NativeState.mk.injEq]
      and_intros <;> first | omega | rfl | trivial

theorem dropAllStrict_range (n : Nat) :
    ∀ (s nh fc : Nat) (le : String) (rest : List (Nat × Nat × Nat)),
      (∀ e ∈ rest, e.1 < s) →
      dropAllStrict
        ((List.range' s n).reverse.map (fun k => ({ handle := k } : DMatrix)))
        { nextHandle := nh,
          live := (List.range' s n).reverse.map (fun k => (k, 1, 1)) ++ rest,
          lastError := le, freeCalls := fc }
      = some { nextHandle := nh, live := rest, lastError := le,
               freeCalls := fc + n } := by
  induction n with
  | zero =>
    intro s nh fc le rest hb
    simp [dropAllStrict]
  | succ n ih =>
    intro s nh fc le rest hb
    rw [List.range'_1_concat]
    simp only [List.reverse_append, List.reverse_cons, List.reverse_nil,
      List.nil_append, List.singleton_append, List.map_cons, List.cons_append]
    have hfilt : List.filter (fun e => decide (e.1 ≠ s + n))
        ((s + n, 1, 1) ::
          (List.map (fun k => (k, 1, 1)) (List.range' s n).reverse ++ rest))
        = List.map (fun k => (k, 1, 1)) (List.range' s n).reverse ++ rest := by
      rw [List.filter_cons_of_neg (by simp)]
      apply List.filter_eq_self.mpr
      intro e he
      rcases List.mem_append.mp he with hleft | hright
      · obtain ⟨k, hk, rfl⟩ := List.mem_map.mp hleft
        have hkr := (List.mem_range'_1.mp (List.mem_reverse.mp hk)).2
        simp only [decide_eq_true_eq]
        omega
      · have := hb e hright
        simp only [decide_eq_true_eq]
        omega
    have hfree : treelite_dmatrix_free ({ handle := s + n } : DMatrix).handle
        ⟨nh, (s + n, 1, 1) :: (List.map (fun k => (k, 1, 1)) (List.range' s n).reverse
                ++ rest), le, fc⟩
        = (Except.ok (),
           ⟨nh, List.map (fun k => (k, 1, 1)) (List.range' s n).reverse ++ rest,
            le, fc + 1⟩) := by
      unfold treelite_dmatrix_free
      rw [List.find?_cons_of_pos _ (by simp)]
      dsimp only
      rw [hfilt]
    have harith : fc + (n + 1) = fc + 1 + n := by omega
    rw [harith]
    unfold dropAllStrict
    unfold DMatrix.drop
    rw [hfree]
    exact ih s nh (fc + 1) le rest hb

/-- C5: constructing and then dropping `n` matrices, starting from any
state whose live handles are below the fresh-handle counter, issues
exactly `n` native free calls, each of which succeeds (the strict drop
never aborts, so there is no double free), and restores the original set
of live handles (no leak). -/
theorem free_exactly_once :
    ∀ (n : Nat) (st : NativeState),
      (∀ e ∈ st.live, e.1 < st.nextHandle) →
      ∃ st1 : NativeState,
        dropAllStrict ((constructN n st).1).reverse (constructN n st).2 = some st1
        ∧ st1.freeCalls = st.freeCalls + n
        ∧ st1.live = st.live := by
  intro n st hb
  obtain ⟨h1, h2⟩ := constructN_handles n st
  have hms : ((constructN n st).1).reverse =
      (List.range' st.nextHandle n).reverse.map (fun k => ({ handle := k } : DMatrix)) := by
    have : (constructN n st).1 =
        (List.range' st.nextHandle n).map (fun k => ({ handle := k } : DMatrix)) := by
      rw [← h1, List.map_map]
      exact (List.map_id _).symm
    rw [this, List.map_reverse]
  refine ⟨{ nextHandle := st.nextHandle + n, live := st.live,
            lastError := st.lastError, freeCalls := st.freeCalls + n }, ?_, rfl, rfl⟩
  rw [hms, h2]
  exact dropAllStrict_range n st.nextHandle (st.nextHandle + n) st.freeCalls
    st.lastError st.live hb

/-- Witness for C5: constructing and dropping two matrices from the
initial state issues exactly two free calls and leaves no live handle. -/
theorem free_exactly_once_witness :
    ∃ st1 : NativeState,
      dropAllStrict ((constructN 2 initState).1).reverse (constructN 2 initState).2
        = some st1
      ∧ st1.freeCalls = initState.freeCalls + 2
      ∧ st1.live = initState.live :=
  free_exactly_once 2 initState (by simp [initState])

end Treerite
